import Mathlib

/-!
Verification of the FlowMetrics semantic-graph pipeline.

This file gives a shallow embedding, over exact rationals, of

  * the edge classifier of src/graphs/graph_builder_clean.py
    (FlowMetricsGraphBuilder.create_semantic_edges and
    FlowMetricsGraphBuilder._analyze_relationship),
  * the persistence step (FlowMetricsGraphBuilder.save_graph),
  * the two query backends, src/graphs/simple_graph_client.py (SQLite)
    and src/graphs/neo4j_client.py (Neo4j),

and proves or refutes the frozen claims about them.  Python floats are
modelled by rationals; SQL result sets and Cypher result rows are
modelled by lists of record structures in deterministic order.
-/

namespace FlowMetrics

/-! ## Generic insertion sort, standing for SQL ORDER BY and Python list.sort -/

/-- Insert an element into a list that is sorted for relation r:
the element is placed before the first entry it is r-related to. -/
def sortIns (r : α → α → Prop) [DecidableRel r] (x : α) : List α → List α
  | [] => [x]
  | y :: ys => if r x y then x :: y :: ys else y :: sortIns r x ys

/-- Insertion sort for an arbitrary decidable relation. -/
def sortRel (r : α → α → Prop) [DecidableRel r] : List α → List α
  | [] => []
  | x :: xs => sortIns r x (sortRel r xs)

theorem mem_sortIns (r : α → α → Prop) [DecidableRel r] (x a : α) (l : List α) :
    a ∈ sortIns r x l ↔ a = x ∨ a ∈ l := by
  induction l with
  | nil => simp [sortIns]
  | cons y ys ih =>
      by_cases h : r x y
      · simp [sortIns, h]
      · simp [sortIns, h, ih]
        tauto

theorem mem_sortRel (r : α → α → Prop) [DecidableRel r] (a : α) (l : List α) :
    a ∈ sortRel r l ↔ a ∈ l := by
  induction l with
  | nil => simp [sortRel]
  | cons x xs ih => simp [sortRel, mem_sortIns, ih]

theorem sorted_sortIns (r : α → α → Prop) [DecidableRel r]
    (htr : ∀ a b c, r a b → r b c → r a c) (hto : ∀ a b, r a b ∨ r b a)
    (x : α) (l : List α) (hl : l.Pairwise r) : (sortIns r x l).Pairwise r := by
  induction l with
  | nil => simp [sortIns]
  | cons y ys ih =>
      rw [List.pairwise_cons] at hl
      by_cases h : r x y
      · rw [sortIns, if_pos h, List.pairwise_cons]
        refine ⟨?_, by rw [List.pairwise_cons]; exact hl⟩
        intro b hb
        rcases List.mem_cons.mp hb with hb | hb
        · exact hb ▸ h
        · exact htr x y b h (hl.1 b hb)
      · rw [sortIns, if_neg h, List.pairwise_cons]
        refine ⟨?_, ih hl.2⟩
        intro b hb
        rcases (mem_sortIns r x b ys).1 hb with hb | hb
        · rcases hto x y with hxy | hyx
          · exact absurd hxy h
          · exact hb ▸ hyx
        · exact hl.1 b hb

theorem sorted_sortRel (r : α → α → Prop) [DecidableRel r]
    (htr : ∀ a b c, r a b → r b c → r a c) (hto : ∀ a b, r a b ∨ r b a)
    (l : List α) : (sortRel r l).Pairwise r := by
  induction l with
  | nil => simp [sortRel]
  | cons x xs ih => exact sorted_sortIns r htr hto x _ ih

/-! ## Data model of the graph builder (graph_builder_clean.py) -/

/-- GraphNode dataclass of graph_builder_clean.py.  The value and metadata
fields are Any in the source; they are modelled with a rational and a
string association list, which is all the pipeline ever stores there. -/
structure GraphNode where
  id : String
  type : String
  content : String
  value : ℚ
  timestamp : String
  confidence : ℚ
  source : String
  tags : List String
  audience_relevance : List (String × ℚ)
  embedding : List ℚ
  metadata : List (String × String)
deriving DecidableEq, Repr

/-- GraphEdge dataclass of graph_builder_clean.py.  The metadata dict
built in create_semantic_edges is modelled by its three fields. -/
structure GraphEdge where
  source_id : String
  target_id : String
  relationship_type : String
  weight : ℚ
  confidence : ℚ
  semantic_similarity : ℚ
  similarity_score : ℚ
  source_types : String
  shared_tags : List String
deriving DecidableEq, Repr

/-- Binary minimum on rationals, written out so that it evaluates by kernel
reduction; stands for the Python builtin min on two floats. -/
def qmin (a b : ℚ) : ℚ := if a ≤ b then a else b

theorem qmin_le_right (a b : ℚ) : qmin a b ≤ b := by
  unfold qmin; split
  · assumption
  · exact le_refl b

theorem qmin_pos (a b : ℚ) (ha : 0 < a) (hb : 0 < b) : 0 < qmin a b := by
  unfold qmin; split
  · exact ha
  · exact hb

theorem qmin_eq_min (a b : ℚ) : qmin a b = min a b := by
  unfold qmin; rw [min_def]

/-- Set intersection of the two tag lists, as in
set(node1.tags) and set(node2.tags): the distinct tags common to both. -/
def shared_tags (l1 l2 : List String) : List String :=
  l1.dedup.filter (fun t => t ∈ l2)

/-- Tag overlap ratio of _analyze_relationship:
len(shared_tags) / max(len(node1.tags), len(node2.tags), 1).
The denominators are the raw list lengths, duplicates included. -/
def tag_overlap (node1 node2 : GraphNode) : ℚ :=
  ((shared_tags node1.tags node2.tags).length : ℚ) /
    ((max (max node1.tags.length node2.tags.length) 1 : ℕ) : ℚ)

/-- Condition of the causality branch of _analyze_relationship:
one node is an insight and the other a metric, and the shared tags meet
the set growth, improvement, performance. -/
def causal_cond (node1 node2 : GraphNode) : Prop :=
  ((node1.type = "insight" ∧ node2.type = "metric") ∨
    (node2.type = "insight" ∧ node1.type = "metric")) ∧
  (∃ t ∈ ["growth", "improvement", "performance"],
     t ∈ shared_tags node1.tags node2.tags)

/-- Condition of the influence branch of _analyze_relationship:
one node is an event and the other a metric or insight. -/
def influence_cond (node1 node2 : GraphNode) : Prop :=
  (node1.type = "event" ∧ (node2.type = "metric" ∨ node2.type = "insight")) ∨
  (node2.type = "event" ∧ (node1.type = "metric" ∨ node1.type = "insight"))

instance (node1 node2 : GraphNode) : Decidable (causal_cond node1 node2) := by
  unfold causal_cond; infer_instance

instance (node1 node2 : GraphNode) : Decidable (influence_cond node1 node2) := by
  unfold influence_cond; infer_instance

/-- FlowMetricsGraphBuilder._analyze_relationship.  Returns
(relationship_type, final_weight, confidence).  The two branch updates are
applied in source order (r1 is the relevance default, r2 applies the
causality branch, r3 the influence branch), then the tag-overlap boost. -/
def analyze_relationship (node1 node2 : GraphNode) (similarity : ℚ) :
    String × ℚ × ℚ :=
  let r1 : String × ℚ × ℚ := ("relevance", similarity, 7/10)
  let r2 : String × ℚ × ℚ :=
    if causal_cond node1 node2 then
      ("causality", qmin (r1.2.1 * (13/10)) 1, 4/5)
    else r1
  let r3 : String × ℚ × ℚ :=
    if influence_cond node1 node2 then
      ("influence", qmin (r2.2.1 * (6/5)) 1, 3/4)
    else r2
  (r3.1, qmin (r3.2.1 * (1 + tag_overlap node1 node2 * (1/2))) 1, r3.2.2)

/-- Edge construction step of the inner loop of create_semantic_edges:
the edge is created iff similarity > similarity_threshold and weight > 0. -/
def emit_edge (node1 node2 : GraphNode) (similarity threshold : ℚ) :
    Option GraphEdge :=
  let r := analyze_relationship node1 node2 similarity
  if similarity > threshold ∧ r.2.1 > 0 then
    some
      { source_id := node1.id
        target_id := node2.id
        relationship_type := r.1
        weight := r.2.1
        confidence := r.2.2
        semantic_similarity := similarity
        similarity_score := similarity
        source_types := node1.type ++ "-" ++ node2.type
        shared_tags := shared_tags node1.tags node2.tags }
  else none

/-- All ordered pairs (i, j) with i < j of the node list, in the order of
the double loop of create_semantic_edges. -/
def pairs_of : List α → List (α × α)
  | [] => []
  | x :: xs => xs.map (fun y => (x, y)) ++ pairs_of xs

/-- FlowMetricsGraphBuilder.create_semantic_edges.  The similarity argument
stands for calculate_semantic_similarity over the two embeddings (cosine
similarity); it is passed as a function so that claims quantifying over
the raw similarity value can be stated directly. -/
def create_semantic_edges (sim : GraphNode → GraphNode → ℚ) (threshold : ℚ)
    (nodes : List GraphNode) : List GraphEdge :=
  (pairs_of nodes).filterMap (fun p => emit_edge p.1 p.2 (sim p.1 p.2) threshold)

/-! ## Basic facts about the classifier -/

theorem analyze_weight_le_one (node1 node2 : GraphNode) (s : ℚ) :
    (analyze_relationship node1 node2 s).2.1 ≤ 1 :=
  qmin_le_right _ _

theorem emit_edge_isSome (node1 node2 : GraphNode) (s th : ℚ) :
    (emit_edge node1 node2 s th).isSome ↔
      (s > th ∧ 0 < (analyze_relationship node1 node2 s).2.1) := by
  simp only [emit_edge]
  split
  · rename_i hc
    simpa using hc
  · rename_i hc
    simpa using hc

theorem emit_edge_eq_some (node1 node2 : GraphNode) (s th : ℚ) (e : GraphEdge)
    (h : emit_edge node1 node2 s th = some e) :
    s > th ∧ 0 < e.weight ∧ e.weight ≤ 1 ∧ e.semantic_similarity = s ∧
      e.source_id = node1.id ∧ e.target_id = node2.id ∧
      e.weight = (analyze_relationship node1 node2 s).2.1 := by
  simp only [emit_edge] at h
  split at h
  · rename_i hcond
    cases h
    exact ⟨hcond.1, hcond.2, analyze_weight_le_one node1 node2 s, rfl, rfl, rfl, rfl⟩
  · cases h

/-! ## Sample nodes for the concrete scenarios of the claims -/

/-- Sample metric node with a single tag alpha. -/
def node_metric_a : GraphNode :=
  { id := "n1", type := "metric", content := "metric a", value := 1,
    timestamp := "2025-01-01", confidence := 9/10, source := "s1",
    tags := ["alpha"], audience_relevance := [], embedding := [1, 0],
    metadata := [] }

/-- Sample metric node with a single tag beta, disjoint from alpha. -/
def node_metric_b : GraphNode :=
  { id := "n2", type := "metric", content := "metric b", value := 2,
    timestamp := "2025-01-02", confidence := 8/10, source := "s2",
    tags := ["beta"], audience_relevance := [], embedding := [0, 1],
    metadata := [] }

/-- Sample insight node tagged growth. -/
def node_insight_g : GraphNode :=
  { id := "n3", type := "insight", content := "growth insight", value := 3,
    timestamp := "2025-01-03", confidence := 7/10, source := "s3",
    tags := ["growth"], audience_relevance := [], embedding := [1, 1],
    metadata := [] }

/-- Sample metric node tagged growth, with the same embedding as the
growth insight node. -/
def node_metric_g : GraphNode :=
  { id := "n4", type := "metric", content := "growth metric", value := 4,
    timestamp := "2025-01-04", confidence := 6/10, source := "s4",
    tags := ["growth"], audience_relevance := [], embedding := [1, 1],
    metadata := [] }

theorem tag_overlap_ab : tag_overlap node_metric_a node_metric_b = 0 := by
  have h : shared_tags node_metric_a.tags node_metric_b.tags = [] := by decide
  unfold tag_overlap
  rw [h]
  norm_num

theorem analyze_ab :
    analyze_relationship node_metric_a node_metric_b (31/100) =
      ("relevance", 31/100, 7/10) := by
  have hc : ¬ causal_cond node_metric_a node_metric_b := by decide
  have hi : ¬ influence_cond node_metric_a node_metric_b := by decide
  simp only [analyze_relationship, if_neg hc, if_neg hi, tag_overlap_ab]
  norm_num [qmin]

theorem tag_overlap_gg : tag_overlap node_insight_g node_metric_g = 1 := by
  have h : shared_tags node_insight_g.tags node_metric_g.tags = ["growth"] := by decide
  unfold tag_overlap
  rw [h]
  norm_num [node_insight_g, node_metric_g]

/-- Words of the spec, step 3 and 4 of the classifier: the branch multiplier
applied to the raw similarity, capped at 1 (multiplier 1.3 for causality,
1.2 for influence, 1.0 for relevance). -/
def spec_base_weight (node1 node2 : GraphNode) (s : ℚ) : ℚ :=
  if causal_cond node1 node2 then qmin (s * (13/10)) 1
  else if influence_cond node1 node2 then qmin (s * (6/5)) 1
  else qmin (s * 1) 1

theorem not_causal_and_influence (node1 node2 : GraphNode)
    (hc : causal_cond node1 node2) (hi : influence_cond node1 node2) : False := by
  rcases hc.1 with ⟨h1, h2⟩ | ⟨h1, h2⟩ <;> rcases hi with ⟨h3, _⟩ | ⟨h3, _⟩
  · exact absurd (h1.symm.trans h3) (by decide)
  · exact absurd (h2.symm.trans h3) (by decide)
  · exact absurd (h2.symm.trans h3) (by decide)
  · exact absurd (h1.symm.trans h3) (by decide)

/-- C3: for every node pair the final edge weight equals
min(base_weight times (1 + tag_overlap times 0.5), 1), with base_weight the
similarity scaled by the branch multiplier and capped at 1.  The hypothesis
s le 1 records that s is a cosine similarity. -/
theorem C3_weight_formula (node1 node2 : GraphNode) (s : ℚ) (hs : s ≤ 1) :
    (analyze_relationship node1 node2 s).2.1 =
      qmin (spec_base_weight node1 node2 s *
        (1 + tag_overlap node1 node2 * (1/2))) 1 := by
  by_cases hc : causal_cond node1 node2 <;> by_cases hi : influence_cond node1 node2
  · exact absurd hi (fun hi => not_causal_and_influence node1 node2 hc hi)
  · simp [analyze_relationship, spec_base_weight, hc, hi]
  · simp [analyze_relationship, spec_base_weight, hc, hi]
  · simp only [analyze_relationship, spec_base_weight, if_neg hc, if_neg hi, mul_one]
    have : qmin s 1 = s := by
      unfold qmin
      rw [if_pos hs]
    rw [this]

/-- Witness for C3 at a concrete pair and similarity. -/
theorem C3_weight_formula_witness :
    (analyze_relationship node_metric_a node_metric_b (31/100)).2.1 =
      qmin (spec_base_weight node_metric_a node_metric_b (31/100) *
        (1 + tag_overlap node_metric_a node_metric_b * (1/2))) 1 :=
  C3_weight_formula node_metric_a node_metric_b (31/100) (by norm_num)

/-- C4: identical embeddings (similarity 1), both nodes tagged growth, types
insight and metric in either order: the classifier returns causality with
confidence 0.8 and final weight 1. -/
theorem C4_causality_scenario :
    analyze_relationship node_insight_g node_metric_g 1 = ("causality", 1, 4/5) ∧
    analyze_relationship node_metric_g node_insight_g 1 = ("causality", 1, 4/5) := by
  constructor
  · have hc : causal_cond node_insight_g node_metric_g := by decide
    have hi : ¬ influence_cond node_insight_g node_metric_g := by decide
    simp only [analyze_relationship, if_pos hc, if_neg hi, tag_overlap_gg]
    norm_num [qmin]
  · have hc : causal_cond node_metric_g node_insight_g := by decide
    have hi : ¬ influence_cond node_metric_g node_insight_g := by decide
    have ht : tag_overlap node_metric_g node_insight_g = 1 := by
      have h : shared_tags node_metric_g.tags node_insight_g.tags = ["growth"] := by decide
      unfold tag_overlap
      rw [h]
      norm_num [node_insight_g, node_metric_g]
    simp only [analyze_relationship, if_pos hc, if_neg hi, ht]
    norm_num [qmin]

/-- Relevance edge produced by the 0.31-similarity scenario of C1. -/
def edge_ab : GraphEdge :=
  { source_id := "n1", target_id := "n2", relationship_type := "relevance",
    weight := 31/100, confidence := 7/10, semantic_similarity := 31/100,
    similarity_score := 31/100, source_types := "metric-metric",
    shared_tags := [] }

/-- C1: an edge is emitted iff the raw similarity exceeds the threshold and
the computed weight is positive; with threshold 0.3 a pair at similarity
0.29 yields no edge, and a pair at 0.31 with zero tag overlap and both
nodes of type metric yields a relevance edge of weight 0.31. -/
theorem C1_edge_emission :
    (∀ (node1 node2 : GraphNode) (s th : ℚ),
        (emit_edge node1 node2 s th).isSome ↔
          (s > th ∧ 0 < (analyze_relationship node1 node2 s).2.1)) ∧
    emit_edge node_metric_a node_metric_b (29/100) (3/10) = none ∧
    (∃ e : GraphEdge,
        emit_edge node_metric_a node_metric_b (31/100) (3/10) = some e ∧
        e.relationship_type = "relevance" ∧ e.weight = 31/100) := by
  refine ⟨emit_edge_isSome, ?_, ?_⟩
  · simp only [emit_edge]
    rw [if_neg]
    intro h
    exact absurd h.1 (by norm_num)
  · refine ⟨edge_ab, ?_, rfl, rfl⟩
    simp only [emit_edge, analyze_ab]
    rw [if_pos (by norm_num)]
    rfl

/-! ## Claim C2: invariants of the produced edge set -/

/-- Two node pairs are distinct as unordered pairs of keys. -/
def updistinct (key : α → β) (p q : α × α) : Prop :=
  ¬((key p.1 = key q.1 ∧ key p.2 = key q.2) ∨
    (key p.1 = key q.2 ∧ key p.2 = key q.1))

theorem mem_pairs_of (p : α × α) (l : List α) (h : p ∈ pairs_of l) :
    p.1 ∈ l ∧ p.2 ∈ l := by
  induction l with
  | nil => cases h
  | cons x xs ih =>
      simp only [pairs_of, List.mem_append, List.mem_map] at h
      rcases h with ⟨y, hy, rfl⟩ | h
      · exact ⟨List.mem_cons_self x xs, List.mem_cons_of_mem x hy⟩
      · exact ⟨List.mem_cons_of_mem x (ih h).1, List.mem_cons_of_mem x (ih h).2⟩

theorem pairs_of_ne (key : α → β) (l : List α) (h : (l.map key).Nodup) :
    ∀ p ∈ pairs_of l, key p.1 ≠ key p.2 := by
  induction l with
  | nil => intro p hp; cases hp
  | cons x xs ih =>
      rw [List.map_cons, List.nodup_cons] at h
      intro p hp
      simp only [pairs_of, List.mem_append, List.mem_map] at hp
      rcases hp with ⟨y, hy, rfl⟩ | hp
      · intro hk
        exact h.1 (hk ▸ List.mem_map_of_mem key hy)
      · exact ih h.2 p hp

theorem pairs_of_pairwise (key : α → β) (l : List α) (h : (l.map key).Nodup) :
    (pairs_of l).Pairwise (updistinct key) := by
  induction l with
  | nil => exact List.Pairwise.nil
  | cons x xs ih =>
      rw [List.map_cons, List.nodup_cons] at h
      have hx : ∀ y ∈ xs, key x ≠ key y := by
        intro y hy hk
        exact h.1 (hk ▸ List.mem_map_of_mem key hy)
      rw [pairs_of, List.pairwise_append]
      refine ⟨?_, ih h.2, ?_⟩
      · rw [List.pairwise_map]
        have hnd : xs.Pairwise (fun a b => key a ≠ key b) :=
          List.pairwise_map.mp h.2
        refine hnd.imp_of_mem ?_
        intro a b ha hb hab
        intro hcon
        rcases hcon with ⟨_, h2⟩ | ⟨h1, _⟩
        · exact hab h2
        · exact hx b hb h1
      · intro a ha b hb
        simp only [List.mem_map] at ha
        obtain ⟨y, hy, rfl⟩ := ha
        have hm := mem_pairs_of b xs hb
        intro hcon
        rcases hcon with ⟨h1, _⟩ | ⟨h1, _⟩
        · exact hx b.1 hm.1 h1
        · exact hx b.2 hm.2 h1

/-- C2: for every build over nodes with distinct ids, the produced edge set
has no self-loops, no duplicate unordered pairs, all weights in (0, 1], and
every semantic similarity strictly above the threshold. -/
theorem C2_edge_set_invariants (sim : GraphNode → GraphNode → ℚ)
    (threshold : ℚ) (nodes : List GraphNode)
    (h : (nodes.map GraphNode.id).Nodup) :
    (∀ e ∈ create_semantic_edges sim threshold nodes,
        e.source_id ≠ e.target_id ∧ 0 < e.weight ∧ e.weight ≤ 1 ∧
          threshold < e.semantic_similarity) ∧
    (create_semantic_edges sim threshold nodes).Pairwise
      (fun e1 e2 =>
        ¬((e1.source_id = e2.source_id ∧ e1.target_id = e2.target_id) ∨
          (e1.source_id = e2.target_id ∧ e1.target_id = e2.source_id))) := by
  constructor
  · intro e he
    unfold create_semantic_edges at he
    rw [List.mem_filterMap] at he
    obtain ⟨p, hp, hemit⟩ := he
    obtain ⟨hth, hw, hle, hsim, hsrc, htgt, _⟩ :=
      emit_edge_eq_some p.1 p.2 (sim p.1 p.2) threshold e hemit
    refine ⟨?_, hw, hle, by rw [hsim]; exact hth⟩
    rw [hsrc, htgt]
    exact pairs_of_ne GraphNode.id nodes h p hp
  · unfold create_semantic_edges
    rw [List.pairwise_filterMap]
    refine (pairs_of_pairwise GraphNode.id nodes h).imp ?_
    intro p q hpq e he e2 he2
    rw [Option.mem_def] at he he2
    obtain ⟨_, _, _, _, hs1, ht1, _⟩ :=
      emit_edge_eq_some p.1 p.2 (sim p.1 p.2) threshold e he
    obtain ⟨_, _, _, _, hs2, ht2, _⟩ :=
      emit_edge_eq_some q.1 q.2 (sim q.1 q.2) threshold e2 he2
    rw [hs1, ht1, hs2, ht2]
    exact hpq

/-- Witness for C2 on a concrete two-node build. -/
theorem C2_edge_set_invariants_witness :
    (∀ e ∈ create_semantic_edges (fun _ _ => 31/100) (3/10)
        [node_metric_a, node_metric_b],
        e.source_id ≠ e.target_id ∧ 0 < e.weight ∧ e.weight ≤ 1 ∧
          (3/10 : ℚ) < e.semantic_similarity) ∧
    (create_semantic_edges (fun _ _ => 31/100) (3/10)
        [node_metric_a, node_metric_b]).Pairwise
      (fun e1 e2 =>
        ¬((e1.source_id = e2.source_id ∧ e1.target_id = e2.target_id) ∨
          (e1.source_id = e2.target_id ∧ e1.target_id = e2.source_id))) :=
  C2_edge_set_invariants (fun _ _ => 31/100) (3/10)
    [node_metric_a, node_metric_b] (by decide)

/-! ## Persistence (FlowMetricsGraphBuilder.save_graph)

The three JSON artifacts are modelled as JSON values with ordered object
keys, matching the insertion order json.dump preserves; equality of these
values is exactly byte-identical output (same key order, same values).
The networkx edge-list file is written by an external library call and is
not part of the claims. -/

/-- JSON value with ordered object keys. -/
inductive Jval where
  | s : String → Jval
  | n : ℚ → Jval
  | arr : List Jval → Jval
  | obj : List (String × Jval) → Jval

/-- Dictionary get with default 0, as in audience_relevance.get(a, 0). -/
def lookup0 (m : List (String × ℚ)) (k : String) : ℚ :=
  match m.find? (fun p => p.1 == k) with
  | some p => p.2
  | none => 0

/-- Order-preserving counting used for the summary dictionaries: the first
occurrence of a key appends it, later occurrences bump its count. -/
def bump (acc : List (String × ℕ)) (k : String) : List (String × ℕ) :=
  if acc.any (fun p => p.1 == k) then
    acc.map (fun p => if p.1 == k then (p.1, p.2 + 1) else p)
  else acc ++ [(k, 1)]

/-- Count keys in first-seen order, as a Python dict built with get(k, 0)+1. -/
def count_by (keys : List String) : List (String × ℕ) :=
  keys.foldl bump []

/-- Keys of the audiences dict of the builder, in insertion order. -/
def audience_names : List String :=
  ["investors", "customers", "internal_team", "developer_community"]

/-- JSON object for one node, field order of asdict on the dataclass. -/
def node_to_json (node : GraphNode) : Jval :=
  .obj [("id", .s node.id), ("type", .s node.type),
        ("content", .s node.content), ("value", .n node.value),
        ("timestamp", .s node.timestamp), ("confidence", .n node.confidence),
        ("source", .s node.source), ("tags", .arr (node.tags.map .s)),
        ("audience_relevance",
          .obj (node.audience_relevance.map (fun p => (p.1, .n p.2)))),
        ("embedding", .arr (node.embedding.map .n)),
        ("metadata", .obj (node.metadata.map (fun p => (p.1, .s p.2))))]

/-- JSON object for one edge, field order of asdict on the dataclass. -/
def edge_to_json (edge : GraphEdge) : Jval :=
  .obj [("source_id", .s edge.source_id), ("target_id", .s edge.target_id),
        ("relationship_type", .s edge.relationship_type),
        ("weight", .n edge.weight), ("confidence", .n edge.confidence),
        ("semantic_similarity", .n edge.semantic_similarity),
        ("metadata",
          .obj [("similarity_score", .n edge.similarity_score),
                ("source_types", .s edge.source_types),
                ("shared_tags", .arr (edge.shared_tags.map .s))])]

/-- Nodes artifact graphs/nodes/flowmetrics_nodes.json; now is the
datetime.now().isoformat() string taken at save time. -/
def nodes_artifact (nodes : List GraphNode) (now : String) : Jval :=
  .obj [("metadata",
          .obj [("total_nodes", .n nodes.length),
                ("node_types", .arr ((nodes.map (fun node => node.type)).dedup.map .s)),
                ("creation_timestamp", .s now)]),
        ("nodes", .arr (nodes.map node_to_json))]

/-- Edges artifact graphs/edges/flowmetrics_edges.json. -/
def edges_artifact (edges : List GraphEdge) (now : String) : Jval :=
  .obj [("metadata",
          .obj [("total_edges", .n edges.length),
                ("relationship_types",
                  .arr ((edges.map (fun edge => edge.relationship_type)).dedup.map .s)),
                ("creation_timestamp", .s now)]),
        ("edges", .arr (edges.map edge_to_json))]

/-- Summary artifact graphs/processed/graph_summary.json; it carries no
timestamp. -/
def summary_artifact (nodes : List GraphNode) (edges : List GraphEdge) : Jval :=
  .obj [("graph_summary",
    .obj [("total_nodes", .n nodes.length),
          ("total_edges", .n edges.length),
          ("node_types",
            .obj ((count_by (nodes.map (fun node => node.type))).map
              (fun p => (p.1, .n p.2)))),
          ("relationship_types",
            .obj ((count_by (edges.map (fun edge => edge.relationship_type))).map
              (fun p => (p.1, .n p.2)))),
          ("audience_coverage",
            .obj (audience_names.map (fun a =>
              (a, .n (nodes.filter
                (fun node => lookup0 node.audience_relevance a > 3/10)).length)))),
          ("source_distribution",
            .obj ((count_by (nodes.map (fun node => node.source))).map
              (fun p => (p.1, .n p.2))))])]

/-- FlowMetricsGraphBuilder.save_graph: the three JSON artifacts written in
one run whose datetime.now().isoformat() is the string now. -/
def save_graph (nodes : List GraphNode) (edges : List GraphEdge)
    (now : String) : Jval × Jval × Jval :=
  (nodes_artifact nodes now, edges_artifact edges now,
   summary_artifact nodes edges)

/-- Counterexample to C5: two runs of the persistence step over the very
same (empty) node and edge sets, at distinct wall-clock instants, do not
produce identical JSON artifacts, because the nodes and edges artifacts
embed the creation timestamp. -/
theorem C5_counterexample :
    save_graph [] [] "2025-01-01T00:00:00" ≠
      save_graph [] [] "2025-01-01T00:00:01" := by
  intro h
  have h1 : nodes_artifact [] "2025-01-01T00:00:00" =
      nodes_artifact [] "2025-01-01T00:00:01" := congrArg Prod.fst h
  simp only [nodes_artifact, Jval.obj.injEq, List.cons.injEq, Prod.mk.injEq,
    Jval.s.injEq, and_true, true_and] at h1
  exact absurd h1 (by decide)

/-- C5 as amended: for fixed node and edge sets, the summary artifact is
identical across two persistence runs, and the nodes and edges artifacts
are identical exactly when the timestamps recorded by the two runs are
equal. -/
theorem C5_persistence_deterministic (nodes : List GraphNode)
    (edges : List GraphEdge) (t1 t2 : String) :
    (save_graph nodes edges t1).2.2 = (save_graph nodes edges t2).2.2 ∧
    ((save_graph nodes edges t1).1 = (save_graph nodes edges t2).1 ↔ t1 = t2) ∧
    ((save_graph nodes edges t1).2.1 = (save_graph nodes edges t2).2.1 ↔ t1 = t2) := by
  refine ⟨rfl, ⟨?_, ?_⟩, ⟨?_, ?_⟩⟩
  · intro h
    simp only [save_graph, nodes_artifact, Jval.obj.injEq, List.cons.injEq,
      Prod.mk.injEq, Jval.s.injEq, and_true, true_and] at h
    exact h
  · intro h
    rw [h]
  · intro h
    simp only [save_graph, edges_artifact, Jval.obj.injEq, List.cons.injEq,
      Prod.mk.injEq, Jval.s.injEq, and_true, true_and] at h
    exact h
  · intro h
    rw [h]

/-! ## Query backends (simple_graph_client.py and neo4j_client.py)

Stored rows mirror the SQLite columns and Neo4j node properties.  The
audience_relevance_json column is modelled already parsed: none stands
both for SQL NULL and for a string json.loads rejects, since both make
the audience queries skip the row. -/

/-- Stored node row (SQLite nodes table / Neo4j Node properties). -/
structure NodeRow where
  id : String
  type : String
  content : String
  source : String
  confidence : ℚ
  tags : List String
  audience_relevance_json : Option (List (String × ℚ))
deriving DecidableEq, Repr

/-- Stored edge row (SQLite edges table / Neo4j RELATES_TO properties). -/
structure EdgeRow where
  source_id : String
  target_id : String
  relationship_type : String
  weight : ℚ
  confidence : ℚ
  semantic_similarity : ℚ
deriving DecidableEq, Repr

/-- A populated database: node rows plus edge rows. -/
structure Store where
  nodes : List NodeRow
  edges : List EdgeRow
deriving DecidableEq, Repr

/-- Lower-cased character list of a string. -/
def lowerStr (s : String) : List Char := s.data.map Char.toLower

/-- Containment of needle in hay as a contiguous subsequence. -/
def hasSubstr (hay needle : List Char) : Bool :=
  match hay with
  | [] => needle.isEmpty
  | c :: t => needle.isPrefixOf (c :: t) || hasSubstr t needle

/-- Case-insensitive substring match: SQLite LIKE with percent wildcards on
ASCII, and the toLower/CONTAINS combination used in the Cypher queries. -/
def like_match (field query : String) : Bool :=
  hasSubstr (lowerStr field) (lowerStr query)

/-- Node order produced by ORDER BY confidence DESC. -/
def conf_desc (a b : NodeRow) : Prop := b.confidence ≤ a.confidence

instance : DecidableRel conf_desc :=
  fun a b => inferInstanceAs (Decidable (b.confidence ≤ a.confidence))

theorem conf_desc_trans (a b c : NodeRow) :
    conf_desc a b → conf_desc b c → conf_desc a c :=
  fun hab hbc => le_trans hbc hab

theorem conf_desc_total (a b : NodeRow) : conf_desc a b ∨ conf_desc b a :=
  le_total b.confidence a.confidence

/-- Edge order produced by ORDER BY weight DESC. -/
def weight_desc (a b : EdgeRow) : Prop := b.weight ≤ a.weight

instance : DecidableRel weight_desc :=
  fun a b => inferInstanceAs (Decidable (b.weight ≤ a.weight))

/-- Scored-node order for the simple audience query (relevance_score
descending). -/
def score_desc (a b : NodeRow × ℚ) : Prop := b.2 ≤ a.2

instance : DecidableRel score_desc :=
  fun a b => inferInstanceAs (Decidable (b.2 ≤ a.2))

/-- Scored-node order for the Neo4j audience query: the sort key is the
pair (relevance_score, confidence), descending lexicographically. -/
def score_conf_desc (a b : NodeRow × ℚ) : Prop :=
  b.2 < a.2 ∨ (b.2 = a.2 ∧ b.1.confidence ≤ a.1.confidence)

instance : DecidableRel score_conf_desc := fun a b => by
  unfold score_conf_desc; infer_instance

namespace SimpleGraphClient

/-- search_nodes of the SQLite client: WHERE content LIKE percent-query-
percent OR source LIKE the same, ORDER BY confidence DESC, LIMIT limit.
Tags are not searched by this backend. -/
def search_nodes (db : Store) (query : String) (limit : ℕ) : List NodeRow :=
  (sortRel conf_desc (db.nodes.filter
    (fun n => like_match n.content query || like_match n.source query))).take limit

/-- Node condition of get_filtered_graph.  In Python an absent argument
(None) and an empty list both skip the corresponding condition, so absent
filters are passed here as empty lists. -/
def node_cond (node_types sources : List String) (min_confidence : ℚ)
    (n : NodeRow) : Bool :=
  (min_confidence ≤ n.confidence) &&
  (node_types.isEmpty || node_types.contains n.type) &&
  (sources.isEmpty || sources.contains n.source)

/-- get_filtered_graph of the SQLite client.  The tags argument appears in
the signature but no condition over it is ever added to the SQL query. -/
def get_filtered_graph (db : Store) (node_types sources : List String)
    (min_confidence min_weight : ℚ) (tags : List String) (limit : ℕ) :
    List NodeRow × List EdgeRow :=
  let nodes := (sortRel conf_desc
    (db.nodes.filter (node_cond node_types sources min_confidence))).take limit
  let node_ids := nodes.map (fun n => n.id)
  let edges :=
    if node_ids.isEmpty then []
    else sortRel weight_desc (db.edges.filter (fun e =>
      node_ids.contains e.source_id && node_ids.contains e.target_id &&
      min_weight ≤ e.weight))
  (nodes, edges)

/-- get_audience_focused_graph of the SQLite client: rows with a non-null
relevance column, kept when the audience score exceeds 0.0, sorted by that
score descending, truncated to limit; edges between kept nodes with weight
at least 0.3. -/
def get_audience_focused_graph (db : Store) (audience : String) (limit : ℕ) :
    List (NodeRow × ℚ) × List EdgeRow :=
  let all_nodes := sortRel conf_desc
    (db.nodes.filter (fun n => n.audience_relevance_json.isSome))
  let relevant_nodes := all_nodes.filterMap (fun n =>
    match n.audience_relevance_json with
    | some m => if lookup0 m audience > 0 then some (n, lookup0 m audience) else none
    | none => none)
  let kept := (sortRel score_desc relevant_nodes).take limit
  let node_ids := kept.map (fun p => p.1.id)
  let edges :=
    if kept.isEmpty then []
    else sortRel weight_desc (db.edges.filter (fun e =>
      node_ids.contains e.source_id && node_ids.contains e.target_id &&
      (3/10 : ℚ) ≤ e.weight))
  (kept, edges)

end SimpleGraphClient

namespace Neo4jGraphClient

/-- search_nodes of the Neo4j client: toLower CONTAINS match on content,
source, or any tag; ORDER BY confidence DESC LIMIT limit. -/
def search_nodes (db : Store) (query : String) (limit : ℕ) : List NodeRow :=
  (sortRel conf_desc (db.nodes.filter (fun n =>
    like_match n.content query || like_match n.source query ||
    n.tags.any (fun t => like_match t query)))).take limit

/-- Node condition of get_filtered_graph on the Neo4j backend: confidence,
type, source, and at least one of the requested tags when tags are given. -/
def node_cond (node_types sources tags : List String) (min_confidence : ℚ)
    (n : NodeRow) : Bool :=
  (min_confidence ≤ n.confidence) &&
  (node_types.isEmpty || node_types.contains n.type) &&
  (sources.isEmpty || sources.contains n.source) &&
  (tags.isEmpty || n.tags.any (fun t => tags.contains t))

/-- get_filtered_graph of the Neo4j client. -/
def get_filtered_graph (db : Store) (node_types sources : List String)
    (min_confidence min_weight : ℚ) (tags : List String) (limit : ℕ) :
    List NodeRow × List EdgeRow :=
  let nodes := (sortRel conf_desc
    (db.nodes.filter (node_cond node_types sources tags min_confidence))).take limit
  let node_ids := nodes.map (fun n => n.id)
  let edges :=
    if node_ids.isEmpty then []
    else sortRel weight_desc (db.edges.filter (fun e =>
      node_ids.contains e.source_id && node_ids.contains e.target_id &&
      min_weight ≤ e.weight))
  (nodes, edges)

/-- Relevance boost applied to insight nodes for storytelling. -/
def boost (n : NodeRow) (r : ℚ) : ℚ :=
  if n.type = "insight" then r * (6/5) else r

/-- Edges of the expansion pattern around a candidate node: undirected
RELATES_TO edges of weight at least 0.4 joining it to a focused node. -/
def conn_edges (db : Store) (fids : List String) (c : NodeRow) : List EdgeRow :=
  db.edges.filter (fun e =>
    ((2/5 : ℚ) ≤ e.weight) &&
    ((e.source_id == c.id && fids.contains e.target_id) ||
     (e.target_id == c.id && fids.contains e.source_id)))

/-- Mean edge weight of a candidate connection set. -/
def avg_weight (es : List EdgeRow) : ℚ :=
  (es.map (fun e => e.weight)).sum / es.length

/-- Expansion ranking: connection count descending, then average weight
descending. -/
def expansion_desc (db : Store) (fids : List String) (a b : NodeRow) : Prop :=
  (conn_edges db fids b).length < (conn_edges db fids a).length ∨
  ((conn_edges db fids b).length = (conn_edges db fids a).length ∧
    avg_weight (conn_edges db fids b) ≤ avg_weight (conn_edges db fids a))

instance (db : Store) (fids : List String) :
    DecidableRel (expansion_desc db fids) := fun a b => by
  unfold expansion_desc; infer_instance

/-- get_audience_focused_graph of the Neo4j client.  The first component
holds the primarily-focused scored nodes (kept when the stored audience
relevance exceeds 0.1, insight scores boosted by 1.2, sorted by score then
confidence descending, truncated to limit); the second holds the up to 10
expansion nodes appended with fixed relevance score 0.3. -/
def get_audience_focused_graph (db : Store) (audience : String) (limit : ℕ) :
    List (NodeRow × ℚ) × List (NodeRow × ℚ) :=
  let all_nodes := sortRel conf_desc
    (db.nodes.filter (fun n => n.audience_relevance_json.isSome))
  let audience_nodes := all_nodes.filterMap (fun n =>
    match n.audience_relevance_json with
    | some m =>
        if lookup0 m audience > 1/10 then some (n, boost n (lookup0 m audience))
        else none
    | none => none)
  let focused_nodes := (sortRel score_conf_desc audience_nodes).take limit
  let focused_ids := focused_nodes.map (fun p => p.1.id)
  let candidates := db.nodes.filter (fun c =>
    !(focused_ids.contains c.id) && !(conn_edges db focused_ids c).isEmpty)
  let expansion_nodes := (sortRel (expansion_desc db focused_ids) candidates).take 10
  (focused_nodes, expansion_nodes.map (fun c => (c, 3/10)))

end Neo4jGraphClient

/-! ## Helpers for the query-layer claims -/

theorem mem_filtered (p : α → Bool) (r : α → α → Prop) [DecidableRel r]
    (l : List α) (k : ℕ) (a : α)
    (h : a ∈ (sortRel r (l.filter p)).take k) : a ∈ l ∧ p a = true :=
  List.mem_filter.mp ((mem_sortRel r a (l.filter p)).1 (List.mem_of_mem_take h))

theorem sorted_take (r : α → α → Prop) [DecidableRel r]
    (htr : ∀ a b c, r a b → r b c → r a c) (hto : ∀ a b, r a b ∨ r b a)
    (l : List α) (k : ℕ) : ((sortRel r l).take k).Pairwise r :=
  (sorted_sortRel r htr hto l).sublist (List.take_sublist k _)

theorem length_take_le_lim (l : List α) (k : ℕ) : (l.take k).length ≤ k := by
  rw [List.length_take]
  exact min_le_left k l.length

theorem neo_node_cond_spec (node_types sources tags : List String)
    (min_confidence : ℚ) (n : NodeRow)
    (h : Neo4jGraphClient.node_cond node_types sources tags min_confidence n = true) :
    min_confidence ≤ n.confidence ∧
    (node_types ≠ [] → n.type ∈ node_types) ∧
    (sources ≠ [] → n.source ∈ sources) ∧
    (tags ≠ [] → ∃ t ∈ n.tags, t ∈ tags) := by
  simp only [Neo4jGraphClient.node_cond, Bool.and_eq_true, Bool.or_eq_true,
    decide_eq_true_eq, List.isEmpty_eq_true, List.any_eq_true,
    List.contains_eq_any_beq, beq_iff_eq] at h
  obtain ⟨⟨⟨h1, h2⟩, h3⟩, h4⟩ := h
  refine ⟨h1, ?_, ?_, ?_⟩
  · intro hne
    rcases h2 with h2 | h2
    · exact absurd h2 hne
    · obtain ⟨x, hx, rfl⟩ := h2
      exact hx
  · intro hne
    rcases h3 with h3 | h3
    · exact absurd h3 hne
    · obtain ⟨x, hx, rfl⟩ := h3
      exact hx
  · intro hne
    rcases h4 with h4 | h4
    · exact absurd h4 hne
    · obtain ⟨t, ht, x, hx, hxt⟩ := h4
      exact ⟨t, ht, hxt ▸ hx⟩

theorem simple_node_cond_spec (node_types sources : List String)
    (min_confidence : ℚ) (n : NodeRow)
    (h : SimpleGraphClient.node_cond node_types sources min_confidence n = true) :
    min_confidence ≤ n.confidence ∧
    (node_types ≠ [] → n.type ∈ node_types) ∧
    (sources ≠ [] → n.source ∈ sources) := by
  simp only [SimpleGraphClient.node_cond, Bool.and_eq_true, Bool.or_eq_true,
    decide_eq_true_eq, List.isEmpty_eq_true, List.any_eq_true,
    List.contains_eq_any_beq, beq_iff_eq] at h
  obtain ⟨⟨h1, h2⟩, h3⟩ := h
  refine ⟨h1, ?_, ?_⟩
  · intro hne
    rcases h2 with h2 | h2
    · exact absurd h2 hne
    · obtain ⟨x, hx, rfl⟩ := h2
      exact hx
  · intro hne
    rcases h3 with h3 | h3
    · exact absurd h3 hne
    · obtain ⟨x, hx, rfl⟩ := h3
      exact hx

/-- Node used in the C6 counterexample store: it carries the single tag
alpha_tag and no others. -/
def cx_node : NodeRow :=
  { id := "m1", type := "metric", content := "alpha", source := "beta",
    confidence := 1, tags := ["alpha_tag"], audience_relevance_json := none }

/-- One-node store for the C6 counterexample. -/
def cx_store : Store := { nodes := [cx_node], edges := [] }

/-- Counterexample to C6: on the relational backend, filtering with
tags equal to the singleton list missing still returns the node, although
the node carries none of the supplied tags — the tags predicate is ignored
by that backend. -/
theorem C6_counterexample :
    (SimpleGraphClient.get_filtered_graph cx_store [] [] 0 0 ["missing"] 10).1
      = [cx_node] ∧
    cx_node.tags.any (fun t => ["missing"].contains t) = false := by
  constructor
  · rfl
  · rfl

/-- C6 as amended: on the graph-database backend every returned node meets
the confidence, type, source and tags predicates conjointly, sorted by
confidence descending and truncated to limit; the relational backend
guarantees the same for confidence, type and source but ignores the tags
argument entirely. -/
theorem C6_filtered_graph_predicates (db : Store)
    (node_types sources tags : List String)
    (min_confidence min_weight : ℚ) (limit : ℕ) :
    (∀ n ∈ (Neo4jGraphClient.get_filtered_graph db node_types sources
        min_confidence min_weight tags limit).1,
      min_confidence ≤ n.confidence ∧
      (node_types ≠ [] → n.type ∈ node_types) ∧
      (sources ≠ [] → n.source ∈ sources) ∧
      (tags ≠ [] → ∃ t ∈ n.tags, t ∈ tags)) ∧
    (Neo4jGraphClient.get_filtered_graph db node_types sources
        min_confidence min_weight tags limit).1.Pairwise conf_desc ∧
    (Neo4jGraphClient.get_filtered_graph db node_types sources
        min_confidence min_weight tags limit).1.length ≤ limit ∧
    (∀ n ∈ (SimpleGraphClient.get_filtered_graph db node_types sources
        min_confidence min_weight tags limit).1,
      min_confidence ≤ n.confidence ∧
      (node_types ≠ [] → n.type ∈ node_types) ∧
      (sources ≠ [] → n.source ∈ sources)) ∧
    (SimpleGraphClient.get_filtered_graph db node_types sources
        min_confidence min_weight tags limit).1.Pairwise conf_desc ∧
    (SimpleGraphClient.get_filtered_graph db node_types sources
        min_confidence min_weight tags limit).1.length ≤ limit := by
  refine ⟨?_, ?_, ?_, ?_, ?_, ?_⟩
  · intro n hn
    exact neo_node_cond_spec node_types sources tags min_confidence n
      (mem_filtered _ conf_desc db.nodes limit n hn).2
  · exact sorted_take conf_desc conf_desc_trans conf_desc_total _ limit
  · exact length_take_le_lim _ limit
  · intro n hn
    exact simple_node_cond_spec node_types sources min_confidence n
      (mem_filtered _ conf_desc db.nodes limit n hn).2
  · exact sorted_take conf_desc conf_desc_trans conf_desc_total _ limit
  · exact length_take_le_lim _ limit

/-- Witness for the amended C6 on a concrete store and filter call. -/
theorem C6_filtered_graph_predicates_witness :
    (0 : ℚ) ≤ cx_node.confidence ∧
    (["metric"] ≠ ([] : List String) → cx_node.type ∈ ["metric"]) ∧
    (([] : List String) ≠ [] → cx_node.source ∈ ([] : List String)) ∧
    ((["alpha_tag"] : List String) ≠ [] → ∃ t ∈ cx_node.tags, t ∈ ["alpha_tag"]) :=
  (C6_filtered_graph_predicates cx_store ["metric"] [] ["alpha_tag"] 0 0 10).1
    cx_node (by decide)

/-! ## Claim C7: search semantics on the two backends -/

/-- Words of the spec for search: the query occurs case-insensitively in
the content, the source, or some tag. -/
def spec_full_match (query : String) (n : NodeRow) : Prop :=
  like_match n.content query = true ∨ like_match n.source query = true ∨
  ∃ t ∈ n.tags, like_match t query = true

/-- Match actually implemented by the relational backend: content or
source only, tags never inspected. -/
def spec_content_source_match (query : String) (n : NodeRow) : Prop :=
  like_match n.content query = true ∨ like_match n.source query = true

theorem neo_match_iff (query : String) (n : NodeRow) :
    (like_match n.content query || like_match n.source query ||
      n.tags.any (fun t => like_match t query)) = true ↔
    spec_full_match query n := by
  simp [spec_full_match, List.any_eq_true, or_assoc]

theorem simple_match_iff (query : String) (n : NodeRow) :
    (like_match n.content query || like_match n.source query) = true ↔
    spec_content_source_match query n := by
  simp [spec_content_source_match]

theorem length_sortIns (r : α → α → Prop) [DecidableRel r] (x : α)
    (l : List α) : (sortIns r x l).length = l.length + 1 := by
  induction l with
  | nil => rfl
  | cons y ys ih =>
      rw [sortIns]
      split
      · rfl
      · rw [List.length_cons, ih, List.length_cons]

theorem length_sortRel (r : α → α → Prop) [DecidableRel r] (l : List α) :
    (sortRel r l).length = l.length := by
  induction l with
  | nil => rfl
  | cons x xs ih => rw [sortRel, length_sortIns, ih, List.length_cons]

theorem mem_search_all (p : α → Bool) (r : α → α → Prop) [DecidableRel r]
    (l : List α) (a : α) (ha : a ∈ l) (hp : p a = true) :
    a ∈ (sortRel r (l.filter p)).take l.length := by
  have hlen : (sortRel r (l.filter p)).length ≤ l.length := by
    rw [length_sortRel]
    exact List.length_filter_le p l
  rw [List.take_of_length_le hlen, mem_sortRel]
  exact List.mem_filter.mpr ⟨ha, hp⟩

/-- Node used in the C7 counterexample store: the query revenue occurs
only among its tags. -/
def cx_tag_node : NodeRow :=
  { id := "t1", type := "metric", content := "alpha", source := "beta",
    confidence := 1, tags := ["revenue"], audience_relevance_json := none }

/-- One-node store for the C7 counterexample. -/
def cx_search_store : Store := { nodes := [cx_tag_node], edges := [] }

/-- Counterexample to C7: for a node whose only match for the query is a
tag, the graph-database backend returns the node while the relational
backend returns nothing, so the two backends do not have identical
semantics and the relational one misses tag matches. -/
theorem C7_counterexample :
    Neo4jGraphClient.search_nodes cx_search_store "revenue" 10 = [cx_tag_node] ∧
    SimpleGraphClient.search_nodes cx_search_store "revenue" 10 = [] ∧
    (∃ t ∈ cx_tag_node.tags, like_match t "revenue" = true) :=
  ⟨rfl, rfl, ⟨"revenue", by decide, by decide⟩⟩

/-- C7 as amended: the graph-database backend returns exactly the nodes
matching the query case-insensitively in content, source or some tag
(sound for every limit, complete when the limit covers the store), ordered
by confidence descending and truncated to limit; the relational backend
has the same shape but matches only content and source. -/
theorem C7_search_semantics (db : Store) (query : String) (limit : ℕ) :
    (∀ n ∈ Neo4jGraphClient.search_nodes db query limit,
      n ∈ db.nodes ∧ spec_full_match query n) ∧
    (Neo4jGraphClient.search_nodes db query limit).Pairwise conf_desc ∧
    (Neo4jGraphClient.search_nodes db query limit).length ≤ limit ∧
    (∀ n ∈ db.nodes, spec_full_match query n →
      n ∈ Neo4jGraphClient.search_nodes db query db.nodes.length) ∧
    (∀ n ∈ SimpleGraphClient.search_nodes db query limit,
      n ∈ db.nodes ∧ spec_content_source_match query n) ∧
    (SimpleGraphClient.search_nodes db query limit).Pairwise conf_desc ∧
    (SimpleGraphClient.search_nodes db query limit).length ≤ limit ∧
    (∀ n ∈ db.nodes, spec_content_source_match query n →
      n ∈ SimpleGraphClient.search_nodes db query db.nodes.length) := by
  refine ⟨?_, ?_, ?_, ?_, ?_, ?_, ?_, ?_⟩
  · intro n hn
    have h := mem_filtered _ conf_desc db.nodes limit n hn
    exact ⟨h.1, (neo_match_iff query n).1 h.2⟩
  · exact sorted_take conf_desc conf_desc_trans conf_desc_total _ limit
  · exact length_take_le_lim _ limit
  · intro n hn hm
    exact mem_search_all _ conf_desc db.nodes n hn ((neo_match_iff query n).2 hm)
  · intro n hn
    have h := mem_filtered _ conf_desc db.nodes limit n hn
    exact ⟨h.1, (simple_match_iff query n).1 h.2⟩
  · exact sorted_take conf_desc conf_desc_trans conf_desc_total _ limit
  · exact length_take_le_lim _ limit
  · intro n hn hm
    exact mem_search_all _ conf_desc db.nodes n hn ((simple_match_iff query n).2 hm)

/-- Witness for the amended C7 on the concrete counterexample store. -/
theorem C7_search_semantics_witness :
    cx_tag_node ∈ cx_search_store.nodes ∧ spec_full_match "revenue" cx_tag_node :=
  (C7_search_semantics cx_search_store "revenue" 10).1 cx_tag_node (by decide)

/-! ## Claim C8: edges returned by get_filtered_graph -/

theorem mem_edges_spec (edges : List EdgeRow) (ids : List String) (mw : ℚ)
    (e : EdgeRow)
    (h : e ∈ (if ids.isEmpty then ([] : List EdgeRow) else
      sortRel weight_desc (edges.filter (fun e2 =>
        ids.contains e2.source_id && ids.contains e2.target_id &&
        (mw ≤ e2.weight))))) :
    e.source_id ∈ ids ∧ e.target_id ∈ ids ∧ mw ≤ e.weight := by
  split at h
  · cases h
  · have h2 := List.mem_filter.mp ((mem_sortRel weight_desc e _).1 h)
    have h3 := h2.2
    simp only [Bool.and_eq_true, decide_eq_true_eq, List.contains_eq_any_beq,
      List.any_eq_true, beq_iff_eq] at h3
    obtain ⟨⟨h4, h5⟩, h6⟩ := h3
    obtain ⟨x, hx, rfl⟩ := h4
    obtain ⟨y, hy, rfl⟩ := h5
    exact ⟨hx, hy, h6⟩

/-- C8: on both backends, every edge returned by get_filtered_graph joins
two nodes present in the returned node list and has weight at least
min_weight. -/
theorem C8_filtered_edges (db : Store) (node_types sources tags : List String)
    (min_confidence min_weight : ℚ) (limit : ℕ) :
    (∀ e ∈ (Neo4jGraphClient.get_filtered_graph db node_types sources
        min_confidence min_weight tags limit).2,
      e.source_id ∈ (Neo4jGraphClient.get_filtered_graph db node_types sources
        min_confidence min_weight tags limit).1.map (fun n => n.id) ∧
      e.target_id ∈ (Neo4jGraphClient.get_filtered_graph db node_types sources
        min_confidence min_weight tags limit).1.map (fun n => n.id) ∧
      min_weight ≤ e.weight) ∧
    (∀ e ∈ (SimpleGraphClient.get_filtered_graph db node_types sources
        min_confidence min_weight tags limit).2,
      e.source_id ∈ (SimpleGraphClient.get_filtered_graph db node_types sources
        min_confidence min_weight tags limit).1.map (fun n => n.id) ∧
      e.target_id ∈ (SimpleGraphClient.get_filtered_graph db node_types sources
        min_confidence min_weight tags limit).1.map (fun n => n.id) ∧
      min_weight ≤ e.weight) := by
  constructor
  · intro e he
    exact mem_edges_spec db.edges _ min_weight e he
  · intro e he
    exact mem_edges_spec db.edges _ min_weight e he

/-- Second node of the C8 witness store. -/
def cx_node2 : NodeRow :=
  { id := "m2", type := "metric", content := "gamma", source := "delta",
    confidence := 1, tags := [], audience_relevance_json := none }

/-- Edge of the C8 witness store, joining the two stored nodes. -/
def cx_edge : EdgeRow :=
  { source_id := "m1", target_id := "m2", relationship_type := "relevance",
    weight := 1, confidence := 1, semantic_similarity := 1 }

/-- Two-node one-edge store for the C8 witness. -/
def cx_store2 : Store := { nodes := [cx_node, cx_node2], edges := [cx_edge] }

/-- Witness for C8 on a concrete store and filter call. -/
theorem C8_filtered_edges_witness :
    cx_edge.source_id ∈ (Neo4jGraphClient.get_filtered_graph cx_store2 [] [] 0 0
      [] 10).1.map (fun n => n.id) ∧
    cx_edge.target_id ∈ (Neo4jGraphClient.get_filtered_graph cx_store2 [] [] 0 0
      [] 10).1.map (fun n => n.id) ∧
    (0 : ℚ) ≤ cx_edge.weight :=
  (C8_filtered_edges cx_store2 [] [] [] 0 0 10).1 cx_edge (by decide)

/-! ## Claim C9: audience-focused graphs -/

/-- C9: on the graph-database backend the primarily-focused (non-expansion)
node list has length at most limit and every entry has stored audience
relevance above 0.1; on the relational backend the returned list has length
at most limit and every entry has stored audience relevance above 0. -/
theorem C9_audience_graph (db : Store) (audience : String) (limit : ℕ) :
    (Neo4jGraphClient.get_audience_focused_graph db audience limit).1.length ≤ limit ∧
    (∀ p ∈ (Neo4jGraphClient.get_audience_focused_graph db audience limit).1,
      ∃ m, p.1.audience_relevance_json = some m ∧ lookup0 m audience > 1/10) ∧
    (SimpleGraphClient.get_audience_focused_graph db audience limit).1.length ≤ limit ∧
    (∀ p ∈ (SimpleGraphClient.get_audience_focused_graph db audience limit).1,
      ∃ m, p.1.audience_relevance_json = some m ∧ lookup0 m audience > 0) := by
  refine ⟨length_take_le_lim _ limit, ?_, length_take_le_lim _ limit, ?_⟩
  · intro p hp
    have h1 := (mem_sortRel score_conf_desc p _).1 (List.mem_of_mem_take hp)
    rw [List.mem_filterMap] at h1
    obtain ⟨n, _, hf⟩ := h1
    split at hf
    · rename_i m hj
      split at hf
      · rename_i hcond
        cases hf
        exact ⟨m, hj, hcond⟩
      · cases hf
    · cases hf
  · intro p hp
    have h1 := (mem_sortRel score_desc p _).1 (List.mem_of_mem_take hp)
    rw [List.mem_filterMap] at h1
    obtain ⟨n, _, hf⟩ := h1
    split at hf
    · rename_i m hj
      split at hf
      · rename_i hcond
        cases hf
        exact ⟨m, hj, hcond⟩
      · cases hf
    · cases hf

/-- Node with stored audience relevance for the C9 witness. -/
def cx_aud_node : NodeRow :=
  { id := "a1", type := "metric", content := "c", source := "s",
    confidence := 1, tags := [],
    audience_relevance_json := some [("investors", 1)] }

/-- One-node store for the C9 witness. -/
def cx_aud_store : Store := { nodes := [cx_aud_node], edges := [] }

/-- Witness for C9 on a concrete store and audience. -/
theorem C9_audience_graph_witness :
    ∃ m, cx_aud_node.audience_relevance_json = some m ∧
      lookup0 m "investors" > 0 :=
  (C9_audience_graph cx_aud_store "investors" 5).2.2.2 (cx_aud_node, 1) (by decide)

/-! ## Claim C10: reloading the JSON files into the SQLite store -/

namespace SimpleGraphClient

/-- INSERT OR REPLACE INTO nodes: any stored row with the same primary key
id is removed and the incoming row stored. -/
def insert_or_replace_node (n : NodeRow) (db : Store) : Store :=
  { db with nodes := db.nodes.filter (fun m => m.id != n.id) ++ [n] }

/-- load_nodes_from_json: one INSERT OR REPLACE per node of the file, in
file order. -/
def load_nodes_from_json (file : List NodeRow) (db : Store) : Store :=
  file.foldl (fun d n => insert_or_replace_node n d) db

/-- load_edges_from_json: plain INSERTs keyed by a fresh autoincrement id,
hence appended with no deduplication. -/
def load_edges_from_json (file : List EdgeRow) (db : Store) : Store :=
  { db with edges := db.edges ++ file }

/-- Freshly created database with empty nodes and edges tables. -/
def empty_store : Store := { nodes := [], edges := [] }

/-- Primary keys of the stored node rows. -/
def node_ids (db : Store) : List String := db.nodes.map (fun n => n.id)

theorem load_nodes_cons (n : NodeRow) (rest : List NodeRow) (db : Store) :
    load_nodes_from_json (n :: rest) db =
      load_nodes_from_json rest (insert_or_replace_node n db) := rfl

theorem mem_ids_insert (n : NodeRow) (db : Store) (x : String) :
    x ∈ node_ids (insert_or_replace_node n db) ↔ x = n.id ∨ x ∈ node_ids db := by
  simp only [node_ids, insert_or_replace_node, List.map_append, List.mem_append,
    List.map_cons, List.map_nil, List.mem_singleton, List.mem_map,
    List.mem_filter, bne_iff_ne, ne_eq]
  constructor
  · rintro (⟨m, ⟨hm, _⟩, rfl⟩ | hx)
    · exact Or.inr ⟨m, hm, rfl⟩
    · exact Or.inl hx
  · rintro (rfl | ⟨m, hm, rfl⟩)
    · exact Or.inr rfl
    · by_cases he : m.id = n.id
      · exact Or.inr he
      · exact Or.inl ⟨m, ⟨hm, he⟩, rfl⟩

theorem nodup_ids_insert (n : NodeRow) (db : Store)
    (h : (node_ids db).Nodup) : (node_ids (insert_or_replace_node n db)).Nodup := by
  simp only [node_ids, insert_or_replace_node, List.map_append, List.map_cons,
    List.map_nil] at h ⊢
  rw [List.nodup_append]
  refine ⟨?_, List.nodup_singleton n.id, ?_⟩
  · exact h.sublist (List.Sublist.map _ (List.filter_sublist db.nodes))
  · intro x hx hy
    simp only [List.mem_singleton] at hy
    subst hy
    simp only [List.mem_map, List.mem_filter, bne_iff_ne, ne_eq] at hx
    obtain ⟨m, ⟨_, hne⟩, heq⟩ := hx
    exact hne heq

theorem filter_ne_length (l : List NodeRow) (x : String)
    (hn : (l.map (fun n => n.id)).Nodup) (hx : x ∈ l.map (fun n => n.id)) :
    (l.filter (fun m => m.id != x)).length + 1 = l.length := by
  induction l with
  | nil => cases hx
  | cons h t ih =>
      rw [List.map_cons, List.nodup_cons] at hn
      rcases List.mem_cons.mp hx with rfl | hx2
      · rw [List.filter_cons_of_neg (by simp)]
        have hall : ∀ m ∈ t, (m.id != h.id) = true := by
          intro m hm
          simp only [bne_iff_ne, ne_eq]
          intro he
          exact hn.1 (he ▸ List.mem_map_of_mem (fun n => n.id) hm)
        rw [List.filter_eq_self.mpr hall, List.length_cons]
      · have hne : h.id ≠ x := by
          intro he
          exact hn.1 (he ▸ hx2)
        rw [List.filter_cons_of_pos (by simpa using hne), List.length_cons,
          List.length_cons]
        rw [← ih hn.2 hx2]

theorem length_insert_of_mem (n : NodeRow) (db : Store)
    (hn : (node_ids db).Nodup) (hx : n.id ∈ node_ids db) :
    (insert_or_replace_node n db).nodes.length = db.nodes.length := by
  simp only [insert_or_replace_node, List.length_append, List.length_cons,
    List.length_nil]
  exact filter_ne_length db.nodes n.id hn hx

theorem mem_ids_load (f : List NodeRow) (db : Store) (x : String)
    (hx : x ∈ node_ids db) : x ∈ node_ids (load_nodes_from_json f db) := by
  induction f generalizing db with
  | nil => exact hx
  | cons m rest ih =>
      rw [load_nodes_cons]
      exact ih _ ((mem_ids_insert m db x).2 (Or.inr hx))

theorem file_ids_mem_load (f : List NodeRow) (db : Store) :
    ∀ n ∈ f, n.id ∈ node_ids (load_nodes_from_json f db) := by
  induction f generalizing db with
  | nil => intro n hn; cases hn
  | cons m rest ih =>
      intro n hn
      rw [load_nodes_cons]
      rcases List.mem_cons.mp hn with rfl | hn2
      · exact mem_ids_load rest _ n.id ((mem_ids_insert n db n.id).2 (Or.inl rfl))
      · exact ih _ n hn2

theorem nodup_ids_load (f : List NodeRow) (db : Store)
    (h : (node_ids db).Nodup) : (node_ids (load_nodes_from_json f db)).Nodup := by
  induction f generalizing db with
  | nil => exact h
  | cons m rest ih =>
      rw [load_nodes_cons]
      exact ih _ (nodup_ids_insert m db h)

theorem load_length_of_mem (f : List NodeRow) (db : Store)
    (hn : (node_ids db).Nodup) (hmem : ∀ n ∈ f, n.id ∈ node_ids db) :
    (load_nodes_from_json f db).nodes.length = db.nodes.length := by
  induction f generalizing db with
  | nil => rfl
  | cons m rest ih =>
      rw [load_nodes_cons]
      have h1 : (node_ids (insert_or_replace_node m db)).Nodup :=
        nodup_ids_insert m db hn
      have h2 : ∀ n ∈ rest, n.id ∈ node_ids (insert_or_replace_node m db) := by
        intro n hn2
        exact (mem_ids_insert m db n.id).2 (Or.inr (hmem n (List.mem_cons_of_mem m hn2)))
      rw [ih _ h1 h2]
      exact length_insert_of_mem m db hn (hmem m (List.mem_cons_self m rest))

end SimpleGraphClient

/-- C10: in the relational client, loading the same nodes file twice into a
fresh store leaves the stored node count unchanged (rows are replaced by
primary key), while loading the same edges file twice doubles the stored
edge count (rows are appended under fresh autoincrement keys). -/
theorem C10_reload_semantics (nfile : List NodeRow) (efile : List EdgeRow) :
    (SimpleGraphClient.load_nodes_from_json nfile
        (SimpleGraphClient.load_nodes_from_json nfile
          SimpleGraphClient.empty_store)).nodes.length =
      (SimpleGraphClient.load_nodes_from_json nfile
        SimpleGraphClient.empty_store).nodes.length ∧
    (SimpleGraphClient.load_edges_from_json efile
        (SimpleGraphClient.load_edges_from_json efile
          SimpleGraphClient.empty_store)).edges.length =
      2 * (SimpleGraphClient.load_edges_from_json efile
        SimpleGraphClient.empty_store).edges.length := by
  constructor
  · apply SimpleGraphClient.load_length_of_mem
    · exact SimpleGraphClient.nodup_ids_load nfile _ List.Pairwise.nil
    · exact SimpleGraphClient.file_ids_mem_load nfile _
  · simp only [SimpleGraphClient.load_edges_from_json,
      SimpleGraphClient.empty_store, List.length_append, List.nil_append]
    rw [two_mul]

end FlowMetrics
